import Mathlib

/-!
# Verification of the `ssevents` SSE publish/subscribe engine

Shallow embedding of the repository's data model and operations, and proofs
about them.  The repository contains several iterations of the library; the
codec claims target the `sse_server` iteration (pointer-typed `Event` fields,
`Event.ToResponseString` / `ReadEvents`), while the client/observer claims
target the feature-complete `ssevents` iteration (plain-string event name,
`ObserverBuilder`, `EmitStrategy`).  Each iteration lives in its own Lean
namespace below.
-/

namespace SseServer

/-- The `sse_server` wire event (`type Event struct` with `Id *string`,
`Event *string`, `Data string`, `Retry *int`).  Go `nil` pointers are
modelled with `Option`. -/
structure Event where
  id : Option String
  event : Option String
  data : String
  retry : Option Int
deriving DecidableEq, Repr

/-- `'0'`..`'9'` digit for `d < 10`, as produced by `fmt.Fprintf` `%d`. -/
def digitChar (d : Nat) : Char := Char.ofNat (48 + d)

/-- Decimal digits of a natural number, most significant first (the fuel
argument bounds the recursion; `natChars` supplies enough fuel). -/
def natCharsCore : Nat → Nat → List Char
  | 0, _ => []
  | fuel + 1, n =>
    if n < 10 then [digitChar n]
    else natCharsCore fuel (n / 10) ++ [digitChar (n % 10)]

/-- Decimal digit string of a natural number. -/
def natChars (n : Nat) : List Char := natCharsCore (n + 1) n

/-- Decimal representation of a Go `int`, as printed by `fmt.Fprintf` `%d`. -/
def intChars (i : Int) : List Char :=
  if i < 0 then '-' :: natChars i.natAbs else natChars i.toNat

/-- The characters of the Go field-marker literal `"id: "`. -/
def idPfx : List Char := "id: ".data

/-- The characters of the Go field-marker literal `"event: "`. -/
def eventPfx : List Char := "event: ".data

/-- The characters of the Go field-marker literal `"data: "`. -/
def dataPfx : List Char := "data: ".data

/-- The characters of the Go field-marker literal `"retry: "`. -/
def retryPfx : List Char := "retry: ".data

/-- The characters of the wire form produced by `Event.ToResponseString`:
`event: <name>\n` (if the name pointer is set), then `data: <data>\n`, then
`id: <id>\n` (if set), then `retry: <n>\n` (if set), then the blank-line
terminator `\n\n`. -/
def encodeChars (e : Event) : List Char :=
  (match e.event with
   | some n => eventPfx ++ n.data ++ ['\n']
   | none => []) ++
  (dataPfx ++ e.data.data ++ ['\n']) ++
  (match e.id with
   | some i => idPfx ++ i.data ++ ['\n']
   | none => []) ++
  (match e.retry with
   | some r => retryPfx ++ intChars r ++ ['\n']
   | none => []) ++
  ['\n', '\n']

/-- `Event.ToResponseString`.  The Go method returns `(string, error)` but
its only failure source is the underlying `strings.Builder`, which never
fails, so the embedding is a total function. -/
def Event.ToResponseString (e : Event) : String := ⟨encodeChars e⟩

/-- `bufio.ScanLines`' `dropCR`: strip one trailing `'\r'` from a line. -/
def dropCR (l : List Char) : List Char :=
  if l.getLast? = some '\r' then l.dropLast else l

/-- Line splitting of `bufio.Scanner` with the default `ScanLines` splitter
(before `dropCR`): tokens are the maximal `'\n'`-free runs; a final run not
terminated by `'\n'` is still returned, unless it is empty. -/
def splitLinesAux (acc : List Char) : List Char → List (List Char)
  | [] => if acc.isEmpty then [] else [acc]
  | c :: cs =>
    if c = '\n' then acc :: splitLinesAux [] cs
    else splitLinesAux (acc ++ [c]) cs

/-- All scanner tokens of a byte stream, with `dropCR` applied to each, as
`scanner.Scan`/`scanner.Text` produces them. -/
def scanLines (cs : List Char) : List (List Char) :=
  (splitLinesAux [] cs).map dropCR

/-- Accumulator state of `ReadEvents`' loop: the pending `var event Event`. -/
structure DecAcc where
  id : Option (List Char)
  event : Option (List Char)
  data : List Char
deriving DecidableEq, Repr

/-- The fresh accumulator `Event{}`. -/
def DecAcc.init : DecAcc := ⟨none, none, []⟩

/-- The `Event` emitted from an accumulator (the `Retry` field is never set
by the decoder). -/
def DecAcc.toEvent (a : DecAcc) : Event :=
  ⟨a.id.map (⟨·⟩), a.event.map (⟨·⟩), ⟨a.data⟩, none⟩

/-- Loop body of `ReadEvents` over the scanned lines.  An empty line emits
the accumulated event when its data is non-empty and resets the accumulator;
`id: ` / `event: ` set the respective field; `data: ` appends to the data;
any other line is ignored.  Events sent to the out channel are collected in
order.  (Cancellation of the surrounding context, which only makes the Go
function stop early and cleanly, is not modelled.) -/
def readEventsLines (a : DecAcc) : List (List Char) → List Event
  | [] => []
  | l :: ls =>
    if l = [] then
      if a.data ≠ [] then a.toEvent :: readEventsLines DecAcc.init ls
      else readEventsLines DecAcc.init ls
    else if idPfx.isPrefixOf l then
      readEventsLines { a with id := some (l.drop idPfx.length) } ls
    else if eventPfx.isPrefixOf l then
      readEventsLines { a with event := some (l.drop eventPfx.length) } ls
    else if dataPfx.isPrefixOf l then
      readEventsLines { a with data := a.data ++ l.drop dataPfx.length } ls
    else
      readEventsLines a ls

/-- `ReadEvents`: the sequence of events the Go function sends to its out
channel while consuming the whole byte stream. -/
def ReadEvents (s : String) : List Event :=
  readEventsLines DecAcc.init (scanLines s.data)

example : ReadEvents "data: hello\n\nid: 7\nevent: x\ndata: yo\n\n" =
    [⟨none, none, "hello", none⟩, ⟨some "7", some "x", "yo", none⟩] := by decide

example : ReadEvents (Event.ToResponseString ⟨some "3", some "ping", "hi", some 25⟩) =
    [⟨some "3", some "ping", "hi", none⟩] := by decide

/-! ### Round-trip lemmas -/

theorem data_mk (l : List Char) : (String.mk l).data = l := rfl

theorem mk_data (s : String) : (⟨s.data⟩ : String) = s := rfl

theorem data_id_str : idPfx = ['i', 'd', ':', ' '] := rfl

theorem data_event_str : eventPfx = ['e', 'v', 'e', 'n', 't', ':', ' '] := rfl

theorem data_data_str : dataPfx = ['d', 'a', 't', 'a', ':', ' '] := rfl

theorem data_retry_str : retryPfx = ['r', 'e', 't', 'r', 'y', ':', ' '] := rfl

theorem str_ne_empty_iff {s : String} : s ≠ "" ↔ s.data ≠ [] := by
  constructor
  · intro h hl
    exact h (by rw [← mk_data s, hl])
  · intro h hl
    exact h (by rw [hl])

theorem isPrefixOf_append_self (p t : List Char) : p.isPrefixOf (p ++ t) = true := by
  simp [List.isPrefixOf_iff_prefix]

theorem isPrefixOf_ne_head (a b : Char) (l t : List Char) (h : a ≠ b) :
    (a :: l).isPrefixOf (b :: t) = false := by
  rw [← Bool.not_eq_true, List.isPrefixOf_iff_prefix, List.cons_prefix_cons]
  exact fun hc => h hc.1

theorem id_npfx_event (t : List Char) :
    idPfx.isPrefixOf (eventPfx ++ t) = false := by
  rw [data_id_str, data_event_str]
  simp only [List.cons_append]
  exact isPrefixOf_ne_head _ _ _ _ (by decide)

theorem id_npfx_data (t : List Char) :
    idPfx.isPrefixOf (dataPfx ++ t) = false := by
  rw [data_id_str, data_data_str]
  simp only [List.cons_append]
  exact isPrefixOf_ne_head _ _ _ _ (by decide)

theorem id_npfx_retry (t : List Char) :
    idPfx.isPrefixOf (retryPfx ++ t) = false := by
  rw [data_id_str, data_retry_str]
  simp only [List.cons_append]
  exact isPrefixOf_ne_head _ _ _ _ (by decide)

theorem event_npfx_data (t : List Char) :
    eventPfx.isPrefixOf (dataPfx ++ t) = false := by
  rw [data_event_str, data_data_str]
  simp only [List.cons_append]
  exact isPrefixOf_ne_head _ _ _ _ (by decide)

theorem event_npfx_retry (t : List Char) :
    eventPfx.isPrefixOf (retryPfx ++ t) = false := by
  rw [data_event_str, data_retry_str]
  simp only [List.cons_append]
  exact isPrefixOf_ne_head _ _ _ _ (by decide)

theorem data_npfx_retry (t : List Char) :
    dataPfx.isPrefixOf (retryPfx ++ t) = false := by
  rw [data_data_str, data_retry_str]
  simp only [List.cons_append]
  exact isPrefixOf_ne_head _ _ _ _ (by decide)

theorem digitChar_clean (d : Nat) (hd : d < 10) :
    digitChar d ≠ '\n' ∧ digitChar d ≠ '\r' := by
  rw [digitChar]
  interval_cases d <;> exact ⟨by decide, by decide⟩

theorem natCharsCore_clean (fuel n : Nat) (c : Char) (hc : c ∈ natCharsCore fuel n) :
    c ≠ '\n' ∧ c ≠ '\r' := by
  induction fuel generalizing n with
  | zero => simp [natCharsCore] at hc
  | succ f ih =>
    rw [natCharsCore] at hc
    by_cases h : n < 10
    · rw [if_pos h] at hc
      simp only [List.mem_singleton] at hc
      subst hc
      exact digitChar_clean n h
    · rw [if_neg h] at hc
      rcases List.mem_append.mp hc with h1 | h1
      · exact ih _ h1
      · simp only [List.mem_singleton] at h1
        subst h1
        exact digitChar_clean _ (Nat.mod_lt _ (by norm_num))

theorem intChars_clean (r : Int) (c : Char) (hc : c ∈ intChars r) :
    c ≠ '\n' ∧ c ≠ '\r' := by
  rw [intChars] at hc
  by_cases h : r < 0
  · rw [if_pos h] at hc
    rcases List.mem_cons.mp hc with h1 | h1
    · subst h1
      exact ⟨by decide, by decide⟩
    · rw [natChars] at h1
      exact natCharsCore_clean _ _ _ h1
  · rw [if_neg h] at hc
    rw [natChars] at hc
    exact natCharsCore_clean _ _ _ hc

theorem splitLinesAux_line (l : List Char) (hl : '\n' ∉ l) (acc rest : List Char) :
    splitLinesAux acc (l ++ '\n' :: rest) = (acc ++ l) :: splitLinesAux [] rest := by
  induction l generalizing acc with
  | nil => simp [splitLinesAux]
  | cons c cs ih =>
    have hc : c ≠ '\n' := fun h => hl (h ▸ List.mem_cons_self c cs)
    have hcs : '\n' ∉ cs := fun h => hl (List.mem_cons_of_mem _ h)
    rw [List.cons_append, splitLinesAux, if_neg hc, ih hcs]
    simp

theorem dropCR_clean (l : List Char) (h : '\r' ∉ l) : dropCR l = l := by
  rw [dropCR]
  split
  · rename_i hl
    exact absurd (List.mem_of_getLast?_eq_some hl) h
  · rfl

theorem scanLines_line (l rest : List Char) (h1 : '\n' ∉ l) (h2 : '\r' ∉ l) :
    scanLines (l ++ '\n' :: rest) = l :: scanLines rest := by
  rw [scanLines, splitLinesAux_line l h1, List.map_cons, List.nil_append,
    dropCR_clean l h2, scanLines]

theorem scanLines_field (p f rest : List Char)
    (hp1 : '\n' ∉ p) (hp2 : '\r' ∉ p) (hf1 : '\n' ∉ f) (hf2 : '\r' ∉ f) :
    scanLines (p ++ (f ++ '\n' :: rest)) = (p ++ f) :: scanLines rest := by
  rw [show p ++ (f ++ '\n' :: rest) = (p ++ f) ++ '\n' :: rest by simp]
  exact scanLines_line (p ++ f) rest
    (fun h => (List.mem_append.mp h).elim hp1 hf1)
    (fun h => (List.mem_append.mp h).elim hp2 hf2)

theorem scanLines_terminator : scanLines ['\n', '\n'] = [[], []] := by
  have h1 : scanLines ('\n' :: ['\n']) = [] :: scanLines ['\n'] :=
    scanLines_line [] ['\n'] (by simp) (by simp)
  have h2 : scanLines ('\n' :: ([] : List Char)) = [] :: scanLines [] :=
    scanLines_line [] [] (by simp) (by simp)
  simpa [h2] using h1

theorem clean_id_str : '\n' ∉ idPfx ∧ '\r' ∉ idPfx := by decide

theorem clean_event_str : '\n' ∉ eventPfx ∧ '\r' ∉ eventPfx := by decide

theorem clean_data_str : '\n' ∉ dataPfx ∧ '\r' ∉ dataPfx := by decide

theorem clean_retry_str : '\n' ∉ retryPfx ∧ '\r' ∉ retryPfx := by decide

theorem id_line_ne_nil (t : List Char) : (idPfx ++ t) ≠ [] := by
  rw [data_id_str]; simp

theorem event_line_ne_nil (t : List Char) : (eventPfx ++ t) ≠ [] := by
  rw [data_event_str]; simp

theorem data_line_ne_nil (t : List Char) : (dataPfx ++ t) ≠ [] := by
  rw [data_data_str]; simp

theorem retry_line_ne_nil (t : List Char) : (retryPfx ++ t) ≠ [] := by
  rw [data_retry_str]; simp

theorem idPfx_ne_nil : idPfx ≠ [] := by decide

theorem eventPfx_ne_nil : eventPfx ≠ [] := by decide

theorem dataPfx_ne_nil : dataPfx ≠ [] := by decide

theorem retryPfx_ne_nil : retryPfx ≠ [] := by decide

/-- C1 (amended): for every `Event` with non-empty `data` whose `id`, `name`
and `data` strings contain neither `'\n'` nor `'\r'`, decoding the encoded
wire form yields exactly the original `id`, `name` and `data` (the `retry`
field is not reconstructed). -/
theorem ReadEvents_ToResponseString (e : Event) (hd : e.data ≠ "")
    (hdata : '\n' ∉ e.data.data ∧ '\r' ∉ e.data.data)
    (hid : ∀ s, e.id = some s → '\n' ∉ s.data ∧ '\r' ∉ s.data)
    (hev : ∀ s, e.event = some s → '\n' ∉ s.data ∧ '\r' ∉ s.data) :
    ReadEvents e.ToResponseString = [⟨e.id, e.event, e.data, none⟩] := by
  obtain ⟨oid, oev, dat, ort⟩ := e
  have hdd : dat.data ≠ [] := str_ne_empty_iff.mp hd
  rw [ReadEvents, Event.ToResponseString, data_mk]
  rcases oid with _ | i <;> rcases oev with _ | n <;> rcases ort with _ | r
  case none.none.none =>
    simp only [encodeChars, List.append_assoc, List.cons_append, List.nil_append,
      List.singleton_append, List.append_nil]
    rw [scanLines_field _ _ _ clean_data_str.1 clean_data_str.2 hdata.1 hdata.2,
      scanLines_terminator]
    simp [readEventsLines, idPfx_ne_nil, eventPfx_ne_nil, dataPfx_ne_nil, retryPfx_ne_nil, data_line_ne_nil, id_npfx_data, event_npfx_data,
      isPrefixOf_append_self, List.drop_left, hdd, DecAcc.toEvent, DecAcc.init, mk_data]
  case none.none.some =>
    have hr1 : '\n' ∉ intChars r := fun h => (intChars_clean r _ h).1 rfl
    have hr2 : '\r' ∉ intChars r := fun h => (intChars_clean r _ h).2 rfl
    simp only [encodeChars, List.append_assoc, List.cons_append, List.nil_append,
      List.singleton_append, List.append_nil]
    rw [scanLines_field _ _ _ clean_data_str.1 clean_data_str.2 hdata.1 hdata.2,
      scanLines_field _ _ _ clean_retry_str.1 clean_retry_str.2 hr1 hr2,
      scanLines_terminator]
    simp [readEventsLines, idPfx_ne_nil, eventPfx_ne_nil, dataPfx_ne_nil, retryPfx_ne_nil, data_line_ne_nil, retry_line_ne_nil, id_npfx_data,
      event_npfx_data, id_npfx_retry, event_npfx_retry, data_npfx_retry,
      isPrefixOf_append_self, List.drop_left, hdd, DecAcc.toEvent, DecAcc.init, mk_data]
  case none.some.none =>
    have hn := hev n rfl
    simp only [encodeChars, List.append_assoc, List.cons_append, List.nil_append,
      List.singleton_append, List.append_nil]
    rw [scanLines_field _ _ _ clean_event_str.1 clean_event_str.2 hn.1 hn.2,
      scanLines_field _ _ _ clean_data_str.1 clean_data_str.2 hdata.1 hdata.2,
      scanLines_terminator]
    simp [readEventsLines, idPfx_ne_nil, eventPfx_ne_nil, dataPfx_ne_nil, retryPfx_ne_nil, event_line_ne_nil, data_line_ne_nil, id_npfx_event,
      id_npfx_data, event_npfx_data, isPrefixOf_append_self, List.drop_left, hdd,
      DecAcc.toEvent, DecAcc.init, mk_data]
  case none.some.some =>
    have hn := hev n rfl
    have hr1 : '\n' ∉ intChars r := fun h => (intChars_clean r _ h).1 rfl
    have hr2 : '\r' ∉ intChars r := fun h => (intChars_clean r _ h).2 rfl
    simp only [encodeChars, List.append_assoc, List.cons_append, List.nil_append,
      List.singleton_append, List.append_nil]
    rw [scanLines_field _ _ _ clean_event_str.1 clean_event_str.2 hn.1 hn.2,
      scanLines_field _ _ _ clean_data_str.1 clean_data_str.2 hdata.1 hdata.2,
      scanLines_field _ _ _ clean_retry_str.1 clean_retry_str.2 hr1 hr2,
      scanLines_terminator]
    simp [readEventsLines, idPfx_ne_nil, eventPfx_ne_nil, dataPfx_ne_nil, retryPfx_ne_nil, event_line_ne_nil, data_line_ne_nil, retry_line_ne_nil,
      id_npfx_event, id_npfx_data, id_npfx_retry, event_npfx_data, event_npfx_retry,
      data_npfx_retry, isPrefixOf_append_self, List.drop_left, hdd,
      DecAcc.toEvent, DecAcc.init, mk_data]
  case some.none.none =>
    have hi := hid i rfl
    simp only [encodeChars, List.append_assoc, List.cons_append, List.nil_append,
      List.singleton_append, List.append_nil]
    rw [scanLines_field _ _ _ clean_data_str.1 clean_data_str.2 hdata.1 hdata.2,
      scanLines_field _ _ _ clean_id_str.1 clean_id_str.2 hi.1 hi.2,
      scanLines_terminator]
    simp [readEventsLines, idPfx_ne_nil, eventPfx_ne_nil, dataPfx_ne_nil, retryPfx_ne_nil, data_line_ne_nil, id_line_ne_nil, id_npfx_data,
      event_npfx_data, isPrefixOf_append_self, List.drop_left, hdd,
      DecAcc.toEvent, DecAcc.init, mk_data]
  case some.none.some =>
    have hi := hid i rfl
    have hr1 : '\n' ∉ intChars r := fun h => (intChars_clean r _ h).1 rfl
    have hr2 : '\r' ∉ intChars r := fun h => (intChars_clean r _ h).2 rfl
    simp only [encodeChars, List.append_assoc, List.cons_append, List.nil_append,
      List.singleton_append, List.append_nil]
    rw [scanLines_field _ _ _ clean_data_str.1 clean_data_str.2 hdata.1 hdata.2,
      scanLines_field _ _ _ clean_id_str.1 clean_id_str.2 hi.1 hi.2,
      scanLines_field _ _ _ clean_retry_str.1 clean_retry_str.2 hr1 hr2,
      scanLines_terminator]
    simp [readEventsLines, idPfx_ne_nil, eventPfx_ne_nil, dataPfx_ne_nil, retryPfx_ne_nil, data_line_ne_nil, id_line_ne_nil, retry_line_ne_nil,
      id_npfx_data, event_npfx_data, id_npfx_retry, event_npfx_retry, data_npfx_retry,
      isPrefixOf_append_self, List.drop_left, hdd, DecAcc.toEvent, DecAcc.init, mk_data]
  case some.some.none =>
    have hi := hid i rfl
    have hn := hev n rfl
    simp only [encodeChars, List.append_assoc, List.cons_append, List.nil_append,
      List.singleton_append, List.append_nil]
    rw [scanLines_field _ _ _ clean_event_str.1 clean_event_str.2 hn.1 hn.2,
      scanLines_field _ _ _ clean_data_str.1 clean_data_str.2 hdata.1 hdata.2,
      scanLines_field _ _ _ clean_id_str.1 clean_id_str.2 hi.1 hi.2,
      scanLines_terminator]
    simp [readEventsLines, idPfx_ne_nil, eventPfx_ne_nil, dataPfx_ne_nil, retryPfx_ne_nil, event_line_ne_nil, data_line_ne_nil, id_line_ne_nil,
      id_npfx_event, id_npfx_data, event_npfx_data, isPrefixOf_append_self,
      List.drop_left, hdd, DecAcc.toEvent, DecAcc.init, mk_data]
  case some.some.some =>
    have hi := hid i rfl
    have hn := hev n rfl
    have hr1 : '\n' ∉ intChars r := fun h => (intChars_clean r _ h).1 rfl
    have hr2 : '\r' ∉ intChars r := fun h => (intChars_clean r _ h).2 rfl
    simp only [encodeChars, List.append_assoc, List.cons_append, List.nil_append,
      List.singleton_append, List.append_nil]
    rw [scanLines_field _ _ _ clean_event_str.1 clean_event_str.2 hn.1 hn.2,
      scanLines_field _ _ _ clean_data_str.1 clean_data_str.2 hdata.1 hdata.2,
      scanLines_field _ _ _ clean_id_str.1 clean_id_str.2 hi.1 hi.2,
      scanLines_field _ _ _ clean_retry_str.1 clean_retry_str.2 hr1 hr2,
      scanLines_terminator]
    simp [readEventsLines, idPfx_ne_nil, eventPfx_ne_nil, dataPfx_ne_nil, retryPfx_ne_nil, event_line_ne_nil, data_line_ne_nil, id_line_ne_nil,
      retry_line_ne_nil, id_npfx_event, id_npfx_data, id_npfx_retry, event_npfx_data,
      event_npfx_retry, data_npfx_retry, isPrefixOf_append_self, List.drop_left, hdd,
      DecAcc.toEvent, DecAcc.init, mk_data]

/-- Witness for the C1 round-trip theorem at a concrete event carrying all
four fields. -/
theorem ReadEvents_ToResponseString_witness :
    ReadEvents (Event.ToResponseString ⟨some "42", some "greet", "hello", some 7⟩) =
      [⟨some "42", some "greet", "hello", none⟩] :=
  ReadEvents_ToResponseString ⟨some "42", some "greet", "hello", some 7⟩
    (by decide) (by decide)
    (fun s hs => by cases hs; exact ⟨by decide, by decide⟩)
    (fun s hs => by cases hs; exact ⟨by decide, by decide⟩)

/-- C1 counterexample: the round-trip law fails as universally stated.  For
the event with `data = "a\nb"` (no id, no name, no retry), decoding the
encoded form yields a single event whose `data` is `"a"`, not `"a\nb"`: the
decoder treats the embedded newline as a line break and discards the `"b"`
line, which carries no field marker. -/
theorem ReadEvents_ToResponseString_multiline_cex :
    ReadEvents (Event.ToResponseString ⟨none, none, "a\nb", none⟩) =
      [⟨none, none, "a", none⟩] ∧ ¬ ("a" : String) = "a\nb" := by decide

end SseServer

namespace Ssevents

/-- The canonical-iteration event.  Its struct definition is not among the
sources; the fields are reconstructed from their uses: `e.Event` is compared
as a plain string (`FilterNoHeartbeat`, `On`, the tests' `evt.Event =
"Custom"`), `e.Data` is a string (`createMux`'s emit handler), and the wire
object also carries `id` and `retry` as in the `sse_server` iteration. -/
structure Event where
  id : Option String := none
  event : String := ""
  data : String := ""
  retry : Option Int := none
deriving DecidableEq, Repr

/-- `Filter` is a predicate-like function over events. -/
abbrev Filter := Event → Bool

/-- `FilterNoHeartbeat`: keep events whose name is not `"heartbeat"`. -/
def FilterNoHeartbeat : Filter := fun e => e.event != "heartbeat"

/-- Client-side `Observer`.  Its Go delivery channel `EventCh` is
`make(chan Event, buffer)`; here only its capacity is modelled. -/
structure Observer where
  eventChCapacity : Nat
  filters : List Filter
  closeOnFirst : Bool
  limit : Int
  emittedCount : Int

/-- `Observer.hasSatisfiedFilters`: every filter in the chain must pass. -/
def Observer.hasSatisfiedFilters (o : Observer) (e : Event) : Bool :=
  o.filters.all (fun f => f e)

/-- `ObserverBuilder` with the Go zero values of `NewObserverBuilder`. -/
structure ObserverBuilder where
  filters : List Filter := []
  closeOnFirst : Bool := false
  limit : Int := 0
  buffer : Int := 0
  includeHeartbeat : Bool := false

/-- `NewObserverBuilder()` returns `&ObserverBuilder{}`. -/
def NewObserverBuilder : ObserverBuilder := {}

/-- `ObserverBuilder.IncludeHeartbeat`. -/
def ObserverBuilder.IncludeHeartbeat (o : ObserverBuilder) : ObserverBuilder :=
  { o with includeHeartbeat := true }

/-- `ObserverBuilder.Filter` appends a custom filter. -/
def ObserverBuilder.Filter (o : ObserverBuilder) (f : Filter) : ObserverBuilder :=
  { o with filters := o.filters ++ [f] }

/-- `ObserverBuilder.On` filters events by name. -/
def ObserverBuilder.On (o : ObserverBuilder) (event : String) : ObserverBuilder :=
  o.Filter (fun e => e.event == event)

/-- `ObserverBuilder.First`. -/
def ObserverBuilder.First (o : ObserverBuilder) : ObserverBuilder :=
  { o with closeOnFirst := true }

/-- `ObserverBuilder.Limit`; the Go method panics when `limit < 1`, modelled
as `none`. -/
def ObserverBuilder.Limit (o : ObserverBuilder) (limit : Int) : Option ObserverBuilder :=
  if limit < 1 then none else some { o with limit := limit }

/-- `ObserverBuilder.Buffer`; the Go method panics when `count < 0`, modelled
as `none`. -/
def ObserverBuilder.Buffer (o : ObserverBuilder) (count : Int) : Option ObserverBuilder :=
  if count < 0 then none else some { o with buffer := count }

/-- `ObserverBuilder.Build`: when `IncludeHeartbeat` was not called,
`FilterNoHeartbeat` is appended to the chain; the delivery channel is
created with capacity `o.buffer`. -/
def ObserverBuilder.Build (o : ObserverBuilder) : Observer :=
  let fs := if !o.includeHeartbeat then o.filters ++ [FilterNoHeartbeat] else o.filters
  { filters := fs
    limit := o.limit
    closeOnFirst := o.closeOnFirst
    emittedCount := 0
    eventChCapacity := o.buffer.toNat }

/-- `Client.isObserverDone`, returning the updated observer (the Go method
mutates `emittedCount` in place) together with the done flag: done
immediately when `closeOnFirst` is set; otherwise, when a limit is set,
increment `emittedCount` and report done once it reaches the limit. -/
def isObserverDone (obs : Observer) : Observer × Bool :=
  if obs.closeOnFirst then (obs, true)
  else if obs.limit > 0 then
    let obs' := { obs with emittedCount := obs.emittedCount + 1 }
    (obs', decide (obs'.emittedCount ≥ obs'.limit))
  else (obs, false)

/-- The dispatcher-side state of one registered observer: the observer
record, whether it has been removed and its `EventCh` closed, and the events
delivered to its channel, in order. -/
structure FanoutObs where
  obs : Observer
  closed : Bool := false
  delivered : List Event := []

/-- One event processed by `Client.fanout` for one observer, in the blocking
(`emitEventsWait`) mode in which a delivery eventually succeeds: a removed
(closed) observer is skipped; otherwise, if the filter chain passes, the
event is sent on `EventCh` and `isObserverDone` decides whether the observer
is collected for removal (its channel closed after the pass). -/
def fanoutStep (c : FanoutObs) (evt : Event) : FanoutObs :=
  if c.closed then c
  else if c.obs.hasSatisfiedFilters evt then
    let r := isObserverDone c.obs
    { obs := r.1, closed := r.2, delivered := c.delivered ++ [evt] }
  else c

/-- `Client.fanout`'s event loop for one observer over a finite prefix of
the raw event channel. -/
def fanoutRun (c : FanoutObs) (evts : List Event) : FanoutObs :=
  evts.foldl fanoutStep c

/-- Number of events of a list passing an observer's filter chain. -/
def matchCount (o : Observer) (evts : List Event) : Nat :=
  (evts.filter (fun e => o.hasSatisfiedFilters e)).length

theorem fanoutRun_closed (evts : List Event) (c : FanoutObs) (h : c.closed = true) :
    fanoutRun c evts = c := by
  induction evts with
  | nil => rfl
  | cons e rest ih =>
    rw [fanoutRun, List.foldl_cons, fanoutStep, if_pos h]
    exact ih

theorem filters_update_emitted (o : Observer) (x : Int) :
    ({ o with emittedCount := x } : Observer).hasSatisfiedFilters = o.hasSatisfiedFilters := rfl

theorem matchCount_nil (o : Observer) : matchCount o [] = 0 := rfl

theorem matchCount_cons (o : Observer) (e : Event) (rest : List Event) :
    matchCount o (e :: rest) =
      (if o.hasSatisfiedFilters e then 1 else 0) + matchCount o rest := by
  rw [matchCount, matchCount, List.filter_cons]
  split
  · simp [Nat.add_comm]
  · simp

theorem fanoutRun_limit (evts : List Event) :
    ∀ (o : Observer) (d : List Event),
      o.closeOnFirst = false → 0 < o.limit → o.emittedCount < o.limit →
      (o.limit - o.emittedCount).toNat ≤ matchCount o evts →
      (fanoutRun ⟨o, false, d⟩ evts).delivered.length
          = d.length + (o.limit - o.emittedCount).toNat
        ∧ (fanoutRun ⟨o, false, d⟩ evts).closed = true := by
  induction evts with
  | nil =>
    intro o d h1 h2 h3 h4
    rw [matchCount_nil] at h4
    omega
  | cons e rest ih =>
    intro o d h1 h2 h3 h4
    rw [fanoutRun, List.foldl_cons]
    by_cases hm : o.hasSatisfiedFilters e = true
    · by_cases hk : o.limit ≤ o.emittedCount + 1
      · have hstep : fanoutStep ⟨o, false, d⟩ e =
            ⟨{ o with emittedCount := o.emittedCount + 1 }, true, d ++ [e]⟩ := by
          simp [fanoutStep, isObserverDone, h1, h2, hm, hk]
        rw [hstep]
        rw [show List.foldl fanoutStep
            (⟨{ o with emittedCount := o.emittedCount + 1 }, true, d ++ [e]⟩ : FanoutObs) rest
            = fanoutRun ⟨{ o with emittedCount := o.emittedCount + 1 }, true, d ++ [e]⟩ rest
          from rfl]
        rw [fanoutRun_closed rest _ rfl]
        constructor
        · simp
          omega
        · rfl
      · have hstep : fanoutStep ⟨o, false, d⟩ e =
            ⟨{ o with emittedCount := o.emittedCount + 1 }, false, d ++ [e]⟩ := by
          simp [fanoutStep, isObserverDone, h1, h2, hm, hk]
        rw [hstep]
        have hmc : matchCount { o with emittedCount := o.emittedCount + 1 } rest
            = matchCount o rest := rfl
        have hrec := ih { o with emittedCount := o.emittedCount + 1 } (d ++ [e])
          h1 h2 (by simp; omega)
          (by
            rw [hmc]
            rw [matchCount_cons, if_pos hm] at h4
            simp
            omega)
        rw [show List.foldl fanoutStep
            (⟨{ o with emittedCount := o.emittedCount + 1 }, false, d ++ [e]⟩ : FanoutObs) rest
            = fanoutRun ⟨{ o with emittedCount := o.emittedCount + 1 }, false, d ++ [e]⟩ rest
          from rfl]
        constructor
        · rw [hrec.1]
          simp
          omega
        · exact hrec.2
    · have hm' : o.hasSatisfiedFilters e = false := by
        revert hm
        cases o.hasSatisfiedFilters e <;> simp
      have hstep : fanoutStep ⟨o, false, d⟩ e = ⟨o, false, d⟩ := by
        simp [fanoutStep, hm']
      rw [hstep]
      refine ih o d h1 h2 h3 ?_
      rw [matchCount_cons, if_neg (by simp [hm'])] at h4
      omega

theorem fanoutRun_first (evts : List Event) :
    ∀ (o : Observer) (d : List Event),
      o.closeOnFirst = true → 1 ≤ matchCount o evts →
      (fanoutRun ⟨o, false, d⟩ evts).delivered.length = d.length + 1
        ∧ (fanoutRun ⟨o, false, d⟩ evts).closed = true := by
  induction evts with
  | nil =>
    intro o d h1 h4
    rw [matchCount_nil] at h4
    omega
  | cons e rest ih =>
    intro o d h1 h4
    rw [fanoutRun, List.foldl_cons]
    by_cases hm : o.hasSatisfiedFilters e = true
    · have hstep : fanoutStep ⟨o, false, d⟩ e = ⟨o, true, d ++ [e]⟩ := by
        simp [fanoutStep, isObserverDone, h1, hm]
      rw [hstep]
      rw [show List.foldl fanoutStep (⟨o, true, d ++ [e]⟩ : FanoutObs) rest
          = fanoutRun ⟨o, true, d ++ [e]⟩ rest from rfl]
      rw [fanoutRun_closed rest _ rfl]
      simp
    · have hm' : o.hasSatisfiedFilters e = false := by
        revert hm
        cases o.hasSatisfiedFilters e <;> simp
      have hstep : fanoutStep ⟨o, false, d⟩ e = ⟨o, false, d⟩ := by
        simp [fanoutStep, hm']
      rw [hstep]
      refine ih o d h1 ?_
      rw [matchCount_cons, if_neg (by simp [hm'])] at h4
      omega

/-- **C2**: an Observer built with `Limit(k)` (and without `First`) that is
delivered at least `k` matching events closes after exactly `k` deliveries,
never fewer or more; an Observer built with `First()` closes after exactly
one delivered matching event regardless of further emissions. -/
theorem observer_limit_first_exact
    (k : Int) (b b' : ObserverBuilder) (hb : b.Limit k = some b')
    (hcf : b'.closeOnFirst = false)
    (evts : List Event) (hm : k.toNat ≤ matchCount b'.Build evts)
    (bf : ObserverBuilder) (hbf : bf.closeOnFirst = true)
    (evts2 : List Event) (hm2 : 1 ≤ matchCount bf.Build evts2) :
    ((fanoutRun ⟨b'.Build, false, []⟩ evts).delivered.length = k.toNat
      ∧ (fanoutRun ⟨b'.Build, false, []⟩ evts).closed = true)
    ∧ ((fanoutRun ⟨bf.Build, false, []⟩ evts2).delivered.length = 1
      ∧ (fanoutRun ⟨bf.Build, false, []⟩ evts2).closed = true) := by
  rw [ObserverBuilder.Limit] at hb
  by_cases hk : k < 1
  · rw [if_pos hk] at hb
    exact absurd hb (by simp)
  · rw [if_neg hk] at hb
    have hb' : b' = { b with limit := k } := by
      cases hb
      rfl
    have hlim : b'.Build.limit = k := by rw [hb']; rfl
    have hcf' : b'.Build.closeOnFirst = false := by
      rw [show b'.Build.closeOnFirst = b'.closeOnFirst from rfl, hcf]
    have hcnt : b'.Build.emittedCount = 0 := rfl
    have h1 := fanoutRun_limit evts b'.Build [] hcf'
      (by rw [hlim]; omega) (by rw [hlim, hcnt]; omega)
      (by rw [hlim, hcnt]; simpa using hm)
    have hcf2 : bf.Build.closeOnFirst = true := by
      rw [show bf.Build.closeOnFirst = bf.closeOnFirst from rfl, hbf]
    have h2 := fanoutRun_first evts2 bf.Build [] hcf2 hm2
    refine ⟨⟨?_, h1.2⟩, ⟨?_, h2.2⟩⟩
    · rw [h1.1, hlim, hcnt]
      simp
    · rw [h2.1]
      rfl

/-- Witness for C2: `Limit(2)` over three matching events delivers exactly
two and closes; `First()` over the same three events delivers exactly one
and closes. -/
theorem observer_limit_first_exact_witness :
    ((fanoutRun ⟨({ NewObserverBuilder with limit := 2 } : ObserverBuilder).Build, false, []⟩
        [⟨none, "a", "x", none⟩, ⟨none, "b", "y", none⟩, ⟨none, "c", "z", none⟩]).delivered.length = (2 : Int).toNat
      ∧ (fanoutRun ⟨({ NewObserverBuilder with limit := 2 } : ObserverBuilder).Build, false, []⟩
        [⟨none, "a", "x", none⟩, ⟨none, "b", "y", none⟩, ⟨none, "c", "z", none⟩]).closed = true)
    ∧ ((fanoutRun ⟨NewObserverBuilder.First.Build, false, []⟩
        [⟨none, "a", "x", none⟩, ⟨none, "b", "y", none⟩, ⟨none, "c", "z", none⟩]).delivered.length = 1
      ∧ (fanoutRun ⟨NewObserverBuilder.First.Build, false, []⟩
        [⟨none, "a", "x", none⟩, ⟨none, "b", "y", none⟩, ⟨none, "c", "z", none⟩]).closed = true) :=
  observer_limit_first_exact 2 NewObserverBuilder { NewObserverBuilder with limit := 2 }
    rfl rfl
    [⟨none, "a", "x", none⟩, ⟨none, "b", "y", none⟩, ⟨none, "c", "z", none⟩] (by decide)
    NewObserverBuilder.First rfl
    [⟨none, "a", "x", none⟩, ⟨none, "b", "y", none⟩, ⟨none, "c", "z", none⟩] (by decide)

theorem isObserverDone_filters (o : Observer) :
    (isObserverDone o).1.hasSatisfiedFilters = o.hasSatisfiedFilters := by
  rw [isObserverDone]
  split
  · rfl
  · split
    · rfl
    · rfl

theorem fanoutStep_filters (c : FanoutObs) (evt : Event) :
    (fanoutStep c evt).obs.hasSatisfiedFilters = c.obs.hasSatisfiedFilters := by
  rw [fanoutStep]
  split
  · rfl
  · split
    · exact isObserverDone_filters c.obs
    · rfl

theorem fanoutStep_delivered (c : FanoutObs) (evt e : Event)
    (h : e ∈ (fanoutStep c evt).delivered) :
    e ∈ c.delivered ∨ c.obs.hasSatisfiedFilters e = true := by
  rw [fanoutStep] at h
  split at h
  · exact Or.inl h
  · split at h
    · rename_i hm
      simp only at h
      rcases List.mem_append.mp h with h1 | h1
      · exact Or.inl h1
      · rw [List.mem_singleton] at h1
        subst h1
        exact Or.inr hm
    · exact Or.inl h

theorem fanoutRun_delivered_sat (evts : List Event) :
    ∀ (c : FanoutObs) (e : Event), e ∈ (fanoutRun c evts).delivered →
      e ∈ c.delivered ∨ c.obs.hasSatisfiedFilters e = true := by
  induction evts with
  | nil => exact fun c e h => Or.inl h
  | cons e' rest ih =>
    intro c e h
    rw [fanoutRun, List.foldl_cons] at h
    rcases ih (fanoutStep c e') e h with h1 | h1
    · exact fanoutStep_delivered c e' e h1
    · rw [fanoutStep_filters] at h1
      exact Or.inr h1

/-- **C4**: an Observer built without `IncludeHeartbeat()` is never delivered
an event named `"heartbeat"` by the fanout dispatcher, and an Observer built
with `IncludeHeartbeat()` whose remaining filters pass a heartbeat event is
delivered it. -/
theorem observer_heartbeat_filtering
    (b : ObserverBuilder) (hb : b.includeHeartbeat = false)
    (evts : List Event) (e : Event)
    (he : e ∈ (fanoutRun ⟨b.Build, false, []⟩ evts).delivered)
    (b2 : ObserverBuilder) (hb2 : b2.includeHeartbeat = true)
    (c2 : FanoutObs) (hc2 : c2.obs = b2.Build) (hopen : c2.closed = false)
    (e2 : Event) (he2 : e2.event = "heartbeat")
    (hpass : b2.filters.all (fun f => f e2) = true) :
    e.event ≠ "heartbeat"
    ∧ (fanoutStep c2 e2).delivered = c2.delivered ++ [e2] := by
  constructor
  · rcases fanoutRun_delivered_sat evts ⟨b.Build, false, []⟩ e he with h1 | h1
    · exact absurd h1 (List.not_mem_nil e)
    · have hfs : b.Build.filters = b.filters ++ [FilterNoHeartbeat] := by
        simp [ObserverBuilder.Build, hb]
      rw [Observer.hasSatisfiedFilters, List.all_eq_true] at h1
      have hnh := h1 FilterNoHeartbeat
        (by rw [hfs]; exact List.mem_append_right _ (List.mem_singleton.mpr rfl))
      rw [FilterNoHeartbeat] at hnh
      simpa using hnh
  · have hfs2 : c2.obs.filters = b2.filters := by
      rw [hc2]
      simp [ObserverBuilder.Build, hb2]
    have hsat : c2.obs.hasSatisfiedFilters e2 = true := by
      rw [Observer.hasSatisfiedFilters, hfs2]
      exact hpass
    rw [fanoutStep, if_neg (by rw [hopen]; exact Bool.false_ne_true), if_pos hsat]

/-- Witness for C4: the default builder never receives the heartbeat event
of the stream, while an `IncludeHeartbeat()` observer is delivered it. -/
theorem observer_heartbeat_filtering_witness :
    (⟨none, "x", "d", none⟩ : Event).event ≠ "heartbeat"
    ∧ (fanoutStep ⟨NewObserverBuilder.IncludeHeartbeat.Build, false, []⟩
        ⟨none, "heartbeat", "hb", none⟩).delivered = [] ++ [⟨none, "heartbeat", "hb", none⟩] :=
  observer_heartbeat_filtering NewObserverBuilder rfl
    [⟨none, "heartbeat", "hb", none⟩, ⟨none, "x", "d", none⟩] ⟨none, "x", "d", none⟩
    (by decide)
    NewObserverBuilder.IncludeHeartbeat rfl
    ⟨NewObserverBuilder.IncludeHeartbeat.Build, false, []⟩ rfl rfl
    ⟨none, "heartbeat", "hb", none⟩ rfl
    (by decide)

/-- **C9** evaluated at the failing input: an Observer built via
`NewObserverBuilder().Build()` with no `Buffer` call gets a delivery channel
`make(chan Event, 0)` of capacity `0`, not the documented default `1`. -/
theorem default_buffer_capacity_zero :
    NewObserverBuilder.Build.eventChCapacity = 0
    ∧ NewObserverBuilder.Build.eventChCapacity ≠ 1 := by decide

/-! ### POST /emit handler (`createMux`) -/

/-- An HTTP response of the emit handler: status code and body text. -/
structure EmitResponse where
  status : Nat
  body : String
deriving DecidableEq, Repr

/-- `respondError`: status 400 and body `"failed: " + err.Error()`. -/
def respondError (msg : String) : EmitResponse := ⟨400, "failed: " ++ msg⟩

/-- A `POST /emit` request as the handler sees it: either the JSON path
(`Content-Type: application/json`) with the outcome of `json.Decode`, or the
plain-text path with the outcome of `io.ReadAll` on the body. -/
inductive EmitRequest where
  | json (decoded : Except String Event)
  | text (body : Except String String)

/-- The `POST /emit` handler of `createMux`: returns the HTTP response
together with the event handed to `sseCtrl.Emit` (broadcast), if any.  A
successful submission writes no body (implicit 200). -/
def handleEmit : EmitRequest → EmitResponse × Option Event
  | .json (.error msg) => (respondError msg, none)
  | .json (.ok event) =>
    if event.data = "" then (respondError "data should not be empty", none)
    else (⟨200, ""⟩, some event)
  | .text (.error msg) => (respondError msg, none)
  | .text (.ok body) =>
    if body = "" then (respondError "data should not be empty", none)
    else (⟨200, ""⟩, some { data := body })

/-- **C5**: an emit request whose decoded JSON event has empty data, or
whose raw text body is empty, is answered with status 400 and body exactly
`"failed: data should not be empty"` and nothing is broadcast; and any event
that does reach the broadcast path has non-empty data. -/
theorem emit_rejects_empty_data (ev : Event) (hev : ev.data = "")
    (req : EmitRequest) (e : Event) (hbe : (handleEmit req).2 = some e) :
    handleEmit (.json (.ok ev)) = (⟨400, "failed: data should not be empty"⟩, none)
    ∧ handleEmit (.text (.ok "")) = (⟨400, "failed: data should not be empty"⟩, none)
    ∧ e.data ≠ "" := by
  refine ⟨by simp [handleEmit, hev, respondError], rfl, ?_⟩
  match req with
  | .json (.error msg) => exact absurd hbe (by simp [handleEmit])
  | .json (.ok ev') =>
    rw [handleEmit] at hbe
    by_cases h : ev'.data = ""
    · rw [if_pos h] at hbe
      exact absurd hbe (by simp)
    · rw [if_neg h] at hbe
      simp only [Option.some.injEq] at hbe
      rw [← hbe]
      exact h
  | .text (.error msg) => exact absurd hbe (by simp [handleEmit])
  | .text (.ok b) =>
    rw [handleEmit] at hbe
    by_cases h : b = ""
    · rw [if_pos h] at hbe
      exact absurd hbe (by simp)
    · rw [if_neg h] at hbe
      simp only [Option.some.injEq] at hbe
      rw [← hbe]
      exact h

/-- Witness for C5: an empty JSON event is rejected, an empty text body is
rejected, and a non-empty text submission broadcasts an event with non-empty
data. -/
theorem emit_rejects_empty_data_witness :
    handleEmit (.json (.ok ⟨none, "", "", none⟩))
        = (⟨400, "failed: data should not be empty"⟩, none)
    ∧ handleEmit (.text (.ok ""))
        = (⟨400, "failed: data should not be empty"⟩, none)
    ∧ ({ data := "hi" } : Event).data ≠ "" :=
  emit_rejects_empty_data ⟨none, "", "", none⟩ rfl (.text (.ok "hi")) { data := "hi" } rfl

/-! ### Reconnection loop (`Client.runReconnectionLoop`) -/

/-- Outcome of a modelled reconnection-loop run: how many connection
attempts were made, how many times the fatal `ErrToManyFailedReconnects`
was published on the error channel, and whether the client was shut down
(`Closed`). -/
structure ReconResult where
  attempts : Nat
  fatalErrors : Nat
  closed : Bool
deriving DecidableEq, Repr

/-- `Client.runReconnectionLoop` under the scenario of C3: every
`connectAndListen` attempt fails, the shutdown context is never cancelled,
and consecutive attempts are about 2 seconds apart, so the 60-second
recency reset never clears the counter after the loop entry.  Each
iteration performs one connection attempt; then, the context being live,
either — when `retryCounter > 3` — publishes the fatal error, calls
`Shutdown` and returns, or sleeps the 2-second backoff, increments
`retryCounter` and loops.  The `fuel` argument makes the model total by
bounding the iterations; any `fuel ≥ 5` is enough to reach the fatal exit. -/
def reconLoopGo : Nat → Nat → ReconResult
  | 0, _ => ⟨0, 0, false⟩
  | fuel + 1, retryCounter =>
    if retryCounter > 3 then ⟨1, 1, true⟩
    else
      let r := reconLoopGo fuel (retryCounter + 1)
      ⟨r.attempts + 1, r.fatalErrors, r.closed⟩

/-- The loop starts with `var retryCounter int` (zero). -/
def runReconnectionLoopAllFail (fuel : Nat) : ReconResult := reconLoopGo fuel 0

theorem reconLoopGo_stop (fuel c : Nat) (h : c > 3) :
    reconLoopGo (fuel + 1) c = ⟨1, 1, true⟩ := by
  rw [reconLoopGo, if_pos h]

theorem reconLoopGo_step (fuel c : Nat) (h : ¬c > 3) :
    reconLoopGo (fuel + 1) c =
      ⟨(reconLoopGo fuel (c + 1)).attempts + 1, (reconLoopGo fuel (c + 1)).fatalErrors,
        (reconLoopGo fuel (c + 1)).closed⟩ := by
  rw [reconLoopGo, if_neg h]

theorem reconLoopGo_fatal (fuel : Nat) :
    ∀ c : Nat, c ≤ 4 → 5 - c ≤ fuel → reconLoopGo fuel c = ⟨5 - c, 1, true⟩ := by
  induction fuel with
  | zero => intro c hc hf; omega
  | succ f ih =>
    intro c hc hf
    by_cases h : c > 3
    · rw [reconLoopGo_stop f c h]
      have hc4 : c = 4 := by omega
      subst hc4
      rfl
    · rw [reconLoopGo_step f c h, ih (c + 1) (by omega) (by omega)]
      have h5 : 5 - c = (5 - (c + 1)) + 1 := by omega
      rw [h5]

/-- **C3** (amended): when no connection attempt ever succeeds, the
reconnection loop makes 5 attempts in all — the first plus 4 retries — and
on the 5th consecutive failure (`retryCounter`, checked after the attempt,
has reached 4 and exceeds 3) publishes the fatal "too many reconnection
attempts" error exactly once, shuts the client down and makes no further
attempts. -/
theorem runReconnectionLoop_too_many (fuel : Nat) (h : 5 ≤ fuel) :
    runReconnectionLoopAllFail fuel = ⟨5, 1, true⟩ := by
  rw [runReconnectionLoopAllFail, reconLoopGo_fatal fuel 0 (by omega) (by omega)]

/-- Witness for C3's amended theorem at fuel 6. -/
theorem runReconnectionLoop_too_many_witness :
    runReconnectionLoopAllFail 6 = ⟨5, 1, true⟩ :=
  runReconnectionLoop_too_many 6 (by decide)

/-- **C3** counterexample: the claim predicts 4 total attempts (1 + 3
retries) with the fatal error published on the 4th consecutive failure; the
code performs 5 attempts before publishing it.  After 4 failed attempts the
counter is 3, `3 > 3` is false, and the loop retries a 5th time. -/
theorem runReconnectionLoop_four_attempts_cex :
    (runReconnectionLoopAllFail 6).attempts = 5
    ∧ (runReconnectionLoopAllFail 6).attempts ≠ 4
    ∧ (reconLoopGo 2 3).closed = true ∧ (reconLoopGo 2 3).attempts = 2 := by decide

/-! ### Emission strategies (`createEmitHandlerBasedOnStrategy`, `Emit`) -/

/-- `EmitStrategy` enumeration. -/
inductive EmitStrategy where
  | Block
  | Drop
  | Timeout
deriving DecidableEq, Repr

/-- The Timeout strategy's bounded wait, `20 * time.Millisecond`. -/
def timeoutStrategyWaitMs : Nat := 20

/-- A registered subscriber's delivery queue as the emission path sees it:
the channel capacity, its current content, and — for the Timeout strategy —
whether the consumer frees a slot within the bounded wait window (an
abstraction of the 20ms real-time race). -/
structure Subscriber where
  capacity : Nat
  queue : List Event
  freesWithinWait : Bool
deriving DecidableEq, Repr

/-- Outcome of one delivery attempt. -/
inductive DeliveryOutcome where
  | delivered
  | skipped
deriving DecidableEq, Repr

/-- The per-subscriber closure produced by
`createEmitHandlerBasedOnStrategy`, applied to one subscriber channel.  It
reports the delivery outcome and the `bool` the closure returns to
`sync.Map.Range` (always `true`: keep iterating): Block sends
unconditionally (waiting for capacity); Drop attempts a non-blocking send
and skips a full queue; Timeout waits at most `timeoutStrategyWaitMs` for a
slot and then skips. -/
def emissionFn (strategy : EmitStrategy) (e : Event) (s : Subscriber) :
    DeliveryOutcome × Bool :=
  match strategy with
  | .Block => (.delivered, true)
  | .Drop => (if s.queue.length < s.capacity then .delivered else .skipped, true)
  | .Timeout =>
    (if s.queue.length < s.capacity ∨ s.freesWithinWait then .delivered else .skipped, true)

/-- `sync.Map.Range`: applies the closure to each entry in turn, stopping
early when the closure returns `false`. -/
def Range (f : Subscriber → DeliveryOutcome × Bool) : List Subscriber → List DeliveryOutcome
  | [] => []
  | s :: rest =>
    let r := f s
    if r.2 then r.1 :: Range f rest else [r.1]

/-- `HttpController.Emit e` = `c.subscribers.Range (c.emissionFn e)`. -/
def Emit (strategy : EmitStrategy) (e : Event) (subs : List Subscriber) :
    List DeliveryOutcome :=
  Range (emissionFn strategy e) subs

theorem Range_all_continue (f : Subscriber → DeliveryOutcome × Bool)
    (h : ∀ s, (f s).2 = true) :
    ∀ subs : List Subscriber, Range f subs = subs.map (fun s => (f s).1) := by
  intro subs
  induction subs with
  | nil => rfl
  | cons s rest ih =>
    rw [Range, if_pos (h s), ih, List.map_cons]

/-- **C6**: broadcasting under Drop attempts a non-blocking delivery to
every registered subscriber and skips exactly the full queues; under Timeout
(bounded wait of the 20ms default) it delivers to each subscriber whose
queue has room or frees a slot within the wait and skips the rest.  In both
cases the emission closure returns `true` for every subscriber, so the
`Range` iteration reaches every remaining subscriber regardless of earlier
skips and the broadcast call always runs to completion, producing one
outcome per subscriber. -/
theorem emit_drop_timeout_total (e : Event) (subs : List Subscriber) :
    Emit .Drop e subs =
      subs.map (fun s => if s.queue.length < s.capacity then .delivered else .skipped)
    ∧ Emit .Timeout e subs =
      subs.map (fun s =>
        if s.queue.length < s.capacity ∨ s.freesWithinWait then .delivered else .skipped)
    ∧ (Emit .Drop e subs).length = subs.length
    ∧ (Emit .Timeout e subs).length = subs.length
    ∧ timeoutStrategyWaitMs = 20 := by
  have hd := Range_all_continue (emissionFn .Drop e) (fun s => rfl) subs
  have ht := Range_all_continue (emissionFn .Timeout e) (fun s => rfl) subs
  refine ⟨hd, ht, ?_, ?_, rfl⟩
  · rw [Emit, hd, List.length_map]
  · rw [Emit, ht, List.length_map]

/-! ### `Observer.WaitForAllOrTimeout` -/

/-- The timeout failure: `ctx.Err()` of the expired
`context.WithTimeout`. -/
inductive WaitError where
  | deadlineExceeded
deriving DecidableEq, Repr

/-- An Observer's queue over one `WaitForAllOrTimeout(d)` call: the ordered
events its drain goroutine accumulates, and whether the queue is closed
within the duration `d` (only then does the inner goroutine finish its
`range` and send the complete slice). -/
structure ObserverQueue where
  events : List Event
  closedWithin : Bool
deriving DecidableEq, Repr

/-- `Observer.WaitForAllOrTimeout`: the inner goroutine drains `EventCh`
into a local slice and sends the whole slice only once the channel closes;
the outer `select` returns that slice if it arrives before the deadline,
and otherwise returns `(nil, ctx.Err())` — the partial accumulation is
never returned. -/
def WaitForAllOrTimeout (q : ObserverQueue) : Option (List Event) × Option WaitError :=
  if q.closedWithin then (some q.events, none)
  else (none, some .deadlineExceeded)

/-- **C7**: whenever the Observer's queue has not closed within the wait
duration, `WaitForAllOrTimeout` returns the timeout failure and no events —
whatever was accumulated before the deadline is discarded, never returned
alongside the failure. -/
theorem waitForAllOrTimeout_discards (q : ObserverQueue) (h : q.closedWithin = false) :
    WaitForAllOrTimeout q = (none, some .deadlineExceeded)
    ∧ (WaitForAllOrTimeout q).1 = none := by
  rw [WaitForAllOrTimeout, if_neg (by rw [h]; exact Bool.false_ne_true)]
  exact ⟨rfl, rfl⟩

/-- Witness for C7, the spec's scenario shape: four accumulated events, the
queue (limit 5) never closes, and the call returns the timeout failure with
no partial result. -/
theorem waitForAllOrTimeout_discards_witness :
    WaitForAllOrTimeout ⟨[⟨none, "a", "m0", none⟩, ⟨none, "a", "m1", none⟩,
        ⟨none, "a", "m2", none⟩, ⟨none, "a", "m3", none⟩], false⟩
      = (none, some .deadlineExceeded)
    ∧ (WaitForAllOrTimeout ⟨[⟨none, "a", "m0", none⟩, ⟨none, "a", "m1", none⟩,
        ⟨none, "a", "m2", none⟩, ⟨none, "a", "m3", none⟩], false⟩).1 = none :=
  waitForAllOrTimeout_discards _ rfl

/-! ### `Client.Shutdown` and `HttpController.Shutdown` -/

/-- The channel-closing state of a Client: the `closed` flag guarded by the
mutex, and how many times each channel has been closed so far — the raw
event channel, the error channel, and each registered Observer's
`EventCh`. -/
structure ClientState where
  closed : Bool
  eventChCloses : Nat
  errorChCloses : Nat
  observerChCloses : List Nat
deriving DecidableEq, Repr

/-- A freshly constructed client (`NewSSEClient`) with `n` registered
observers: not closed, nothing closed yet. -/
def newClientState (n : Nat) : ClientState := ⟨false, 0, 0, List.replicate n 0⟩

/-- `Client.Shutdown`: under the mutex, if not yet closed, set `closed`,
cancel the shutdown context, and close the event channel, the error
channel and every registered observer's channel; otherwise do nothing. -/
def ClientState.Shutdown (c : ClientState) : ClientState :=
  if c.closed then c
  else
    { closed := true
      eventChCloses := c.eventChCloses + 1
      errorChCloses := c.errorChCloses + 1
      observerChCloses := c.observerChCloses.map (· + 1) }

/-- The `HttpController`'s state relevant to `Shutdown`: its root context. -/
structure ControllerState where
  cancelled : Bool
deriving DecidableEq, Repr

/-- `HttpController.Shutdown` calls `c.cancel()`; cancelling a
`context.CancelFunc` is idempotent. -/
def ControllerState.Shutdown (c : ControllerState) : ControllerState :=
  { cancelled := true }

theorem shutdown_of_closed (c : ClientState) (h : c.closed = true) :
    c.Shutdown = c := by
  rw [ClientState.Shutdown, if_pos h]

theorem shutdown_closed (c : ClientState) : c.Shutdown.closed = true := by
  rw [ClientState.Shutdown]
  split
  · assumption
  · rfl

theorem shutdown_iterate (n k : Nat) (hk : 1 ≤ k) :
    ClientState.Shutdown^[k] (newClientState n) = ⟨true, 1, 1, List.replicate n 1⟩ := by
  have hfix : ∀ m : Nat, 1 ≤ m →
      ClientState.Shutdown^[m] (newClientState n) = (newClientState n).Shutdown := by
    intro m hm
    induction m with
    | zero => omega
    | succ j ih =>
      by_cases hj : 1 ≤ j
      · rw [Function.iterate_succ_apply', ih hj,
          shutdown_of_closed _ (shutdown_closed (newClientState n))]
      · have hj0 : j = 0 := by omega
        subst hj0
        rfl
  have h1 : (newClientState n).Shutdown =
      ⟨true, 1, 1, List.replicate n 1⟩ := by
    rw [newClientState, ClientState.Shutdown]
    simp [List.map_replicate]
  rw [hfix k hk, h1]

/-- **C8**: `Shutdown` on an already-closed Client is a no-op (idempotence),
and however many times `Shutdown` is invoked — explicit call, the
reconnection loop's deferred call on exit, and the extra direct call on the
fatal retry-exhaustion path — the raw event channel, the error channel and
every registered Observer's queue are each closed exactly once; likewise
`HttpController.Shutdown` only re-cancels its root context, which is
idempotent. -/
theorem shutdown_idempotent_single_close (c : ClientState) (cc : ControllerState)
    (n k : Nat) (hk : 1 ≤ k) :
    c.Shutdown.Shutdown = c.Shutdown
    ∧ (ClientState.Shutdown^[k] (newClientState n)).eventChCloses = 1
    ∧ (ClientState.Shutdown^[k] (newClientState n)).errorChCloses = 1
    ∧ (ClientState.Shutdown^[k] (newClientState n)).observerChCloses = List.replicate n 1
    ∧ (ClientState.Shutdown^[k] (newClientState n)).closed = true
    ∧ cc.Shutdown.Shutdown = cc.Shutdown := by
  refine ⟨shutdown_of_closed _ (shutdown_closed c), ?_, ?_, ?_, ?_, rfl⟩ <;>
    rw [shutdown_iterate n k hk]

/-- Witness for C8: three consecutive shutdowns of a two-observer client
close each channel exactly once. -/
theorem shutdown_idempotent_single_close_witness :
    (newClientState 2).Shutdown.Shutdown = (newClientState 2).Shutdown
    ∧ (ClientState.Shutdown^[3] (newClientState 2)).eventChCloses = 1
    ∧ (ClientState.Shutdown^[3] (newClientState 2)).errorChCloses = 1
    ∧ (ClientState.Shutdown^[3] (newClientState 2)).observerChCloses = List.replicate 2 1
    ∧ (ClientState.Shutdown^[3] (newClientState 2)).closed = true
    ∧ (ControllerState.mk false).Shutdown.Shutdown = (ControllerState.mk false).Shutdown :=
  shutdown_idempotent_single_close (newClientState 2) (ControllerState.mk false) 2 3
    (by decide)

/-! ### Fanout start with no observers (`Client.fanout` / `Start`) -/

/-- `Client.fanout` as a whole: if the observer list is empty when the
dispatcher task starts, it returns immediately; otherwise it consumes the
raw event channel and runs the per-observer delivery pass for each event. -/
def fanout (observersAtStart : List FanoutObs) (evts : List Event) : List FanoutObs :=
  if observersAtStart.length = 0 then observersAtStart
  else evts.foldl (fun obs evt => obs.map (fanoutStep · evt)) observersAtStart

/-- The events the dispatcher delivered to the observer at index `i`. -/
def dispatcherDeliveredTo (observersAtStart : List FanoutObs) (evts : List Event)
    (i : Nat) : List Event :=
  ((fanout observersAtStart evts).map FanoutObs.delivered).getD i []

/-- **C10**: when `Start` finds no registered Observers, the fanout
dispatcher returns immediately: for any stream of decoded events it touches
no observer state and delivers nothing to any index — in particular an
Observer subscribed after `Start` is never delivered an event by the
dispatcher — and such an Observer's queue is closed exactly once, by
`Shutdown`. -/
theorem fanout_empty_start (evts : List Event) (i k : Nat) (hk : 1 ≤ k) :
    fanout [] evts = []
    ∧ dispatcherDeliveredTo [] evts i = []
    ∧ (ClientState.Shutdown^[k] (newClientState 1)).observerChCloses = [1] := by
  have h0 : fanout [] evts = [] := rfl
  refine ⟨h0, ?_, ?_⟩
  · rw [dispatcherDeliveredTo, h0]
    cases i <;> rfl
  · rw [shutdown_iterate 1 k hk]
    rfl

/-- Witness for C10 at one decoded event, index 0, two shutdown calls. -/
theorem fanout_empty_start_witness :
    fanout [] [⟨none, "a", "x", none⟩] = []
    ∧ dispatcherDeliveredTo [] [⟨none, "a", "x", none⟩] 0 = []
    ∧ (ClientState.Shutdown^[2] (newClientState 1)).observerChCloses = [1] :=
  fanout_empty_start [⟨none, "a", "x", none⟩] 0 2 (by decide)

end Ssevents
